import Mathlib

/-!
Verification of the dailyfrigate clip-archival pipeline.

The definitions below are a shallow embedding of the repository sources,
chiefly `grabit.py` (the main archiver), together with the fragments of
`optchat.py` and `optfrigate.py` that the batch-scheduling and
thumbnail-degrade properties refer to.  Machine floats of the Python code
are modelled as exact rationals; Python `int()` truncation is modelled
explicitly by `pyInt`.  Filesystem and network effects are modelled by an
explicit world state and a network-call log threaded through the run.
-/

/-- Python `int(q)` on a number: truncation toward zero. -/
def pyInt (q : ℚ) : ℤ :=
  if q < 0 then -((-q).floor) else q.floor

/-- The computable `Rat.floor` agrees with the mathematical floor. -/
theorem ratFloor_eq_intFloor (x : ℚ) : x.floor = Int.floor x := by
  rw [Rat.floor_def', ← Rat.floor_def]

/-- On nonnegative inputs Python truncation is the floor. -/
theorem pyInt_of_nonneg {x : ℚ} (h : 0 ≤ x) : pyInt x = Int.floor x := by
  rw [pyInt, if_neg (not_lt.mpr h), ratFloor_eq_intFloor]

/-- Python truthiness of an optional string (`None` and the empty string are falsy). -/
def optStrTruthy : Option String → Bool
  | none => false
  | some s => decide (s ≠ "")

/-- Python truthiness of an optional number (`None` and `0.0` are falsy). -/
def optRatTruthy : Option ℚ → Bool
  | none => false
  | some q => decide (q ≠ 0)

/-- A single Frigate event clip, as in `grabit.py` `FrigateClip` (dataclass).
Fields `download_path`, `snapshot_path`, `pip_path`, `duration_sec` start as
`None` and are filled in by processing. -/
structure FrigateClip where
  id : String
  camera : String
  label : String
  zone : Option String
  score : ℚ
  start_time : ℚ
  end_time : ℚ
  download_path : Option String := none
  snapshot_path : Option String := none
  pip_path : Option String := none
  duration_sec : Option ℚ := none
deriving DecidableEq, Repr

/-- `FrigateClip.formatted_score`: the source computes `f"{int(self.score * 100)}%"`,
a truncating conversion. -/
def FrigateClip.formatted_score (c : FrigateClip) : String :=
  toString (pyInt (c.score * 100)) ++ "%"

/-- `FrigateClip.formatted_datetime` renders `start_time` for chapter titles.
The source formats the epoch through `strftime`; the calendar rendering is
opaque to every property below, so the epoch value is rendered directly. -/
def FrigateClip.formatted_datetime (c : FrigateClip) : String :=
  toString c.start_time

/-- `FrigateClip.chapter_title`: `f"{label} ({formatted_score}) - {formatted_datetime}"`. -/
def FrigateClip.chapter_title (c : FrigateClip) : String :=
  c.label ++ " (" ++ c.formatted_score ++ ") - " ++ c.formatted_datetime

/-- The caption burned below the overlay thumbnail in `create_pip_video`
(`grabit.py`): `text=f"{clip.label}: {clip.formatted_score}"`. -/
def captionText (c : FrigateClip) : String :=
  c.label ++ ": " ++ c.formatted_score

/-- Claim-side caption, following the specification words: the score is
multiplied by 100 and rounded to the nearest integer percent. -/
def specCaption (c : FrigateClip) : String :=
  c.label ++ ": " ++ toString (round (c.score * 100)) ++ "%"

/-- Global cleanup registry state of `grabit.py`: the `_temp_directories`
registry together with the directories that actually exist on disk. -/
structure CleanupState where
  temp_directories : List String
  fs : List String
deriving DecidableEq, Repr

/-- `cleanup_temp_files` (`grabit.py` lines 137-157): iterate over a copy of
the registry, remove each registered directory that exists (per-directory
errors are caught, so the function always returns), then clear the registry.
Returns the new state and the list of directories actually deleted. -/
def cleanup_temp_files (s : CleanupState) : CleanupState × List String :=
  (⟨[], s.fs.filter (fun d => !(s.temp_directories.contains d))⟩,
   s.temp_directories.filter (fun d => s.fs.contains d))

/-- Example clip with score 0.855 used to exercise the caption rendering. -/
def scoreClip : FrigateClip :=
  { id := "e1", camera := "front", label := "person", zone := none,
    score := mkRat 171 200, start_time := 0, end_time := 5 }

theorem scoreClip_pct : pyInt (scoreClip.score * 100) = 85 := by
  have hx : scoreClip.score * 100 = (171 : ℚ) / 2 := by
    norm_num [scoreClip, Rat.mkRat_eq_div]
  rw [pyInt, hx, if_neg (by norm_num), ratFloor_eq_intFloor]
  norm_num [Int.floor_eq_iff]

theorem scoreClip_round : round (scoreClip.score * 100) = 86 := by
  have hx : scoreClip.score * 100 = (171 : ℚ) / 2 := by
    norm_num [scoreClip, Rat.mkRat_eq_div]
  rw [hx]
  norm_num [round_eq, Int.floor_eq_iff]

/-- C9 counterexample: at score 0.855 the code caption truncates to 85%
while the claimed rounding yields 86%, so the claimed caption text is wrong. -/
theorem caption_truncates_not_rounds :
    captionText scoreClip = "person: 85%" ∧
    specCaption scoreClip = "person: 86%" ∧
    captionText scoreClip ≠ specCaption scoreClip := by
  have h1 : captionText scoreClip = "person: 85%" := by
    simp only [captionText, FrigateClip.formatted_score, scoreClip_pct]
    decide
  have h2 : specCaption scoreClip = "person: 86%" := by
    simp only [specCaption, scoreClip_round]
    decide
  exact ⟨h1, h2, by rw [h1, h2]; decide⟩

/-- C9 amended: the caption is `"{label}: {p}%"` where `p` is the score times
100 truncated toward zero, i.e. the unique integer with `p ≤ 100*score < p+1`
for a nonnegative score. -/
theorem caption_formatted_score (c : FrigateClip) (h : 0 ≤ c.score) :
    ∃ p : ℤ, captionText c = c.label ++ ": " ++ (toString p ++ "%") ∧
      (p : ℚ) ≤ c.score * 100 ∧ c.score * 100 < p + 1 := by
  refine ⟨Int.floor (c.score * 100), ?_, Int.floor_le _, Int.lt_floor_add_one _⟩
  have hq : (0 : ℚ) ≤ c.score * 100 := by
    have : (0 : ℚ) ≤ 100 := by norm_num
    exact mul_nonneg h this
  simp [captionText, FrigateClip.formatted_score, pyInt_of_nonneg hq]

/-- C9 amended witness: the caption theorem applied to the concrete 0.855 clip. -/
theorem caption_formatted_score_witness :
    0 ≤ scoreClip.score ∧
    ∃ p : ℤ, captionText scoreClip = scoreClip.label ++ ": " ++ (toString p ++ "%") ∧
      (p : ℚ) ≤ scoreClip.score * 100 ∧ scoreClip.score * 100 < p + 1 :=
  ⟨by decide, caption_formatted_score scoreClip (by decide)⟩

/-- C10: the first `cleanup_temp_files` invocation deletes every registered
directory that exists and empties the registry, and a repeated invocation is
a no-op: it deletes nothing and leaves the state unchanged (and, being a
total function, cannot crash). -/
theorem cleanup_idempotent (s : CleanupState) :
    (cleanup_temp_files s).1.temp_directories = [] ∧
    (cleanup_temp_files s).2 = s.temp_directories.filter (fun d => s.fs.contains d) ∧
    cleanup_temp_files (cleanup_temp_files s).1 = ((cleanup_temp_files s).1, []) := by
  refine ⟨rfl, rfl, ?_⟩
  simp [cleanup_temp_files, List.filter_eq_self]

/-- A chapter marker as written by `create_chapters_file`
(`[CHAPTER] TIMEBASE=1/1000 START END title`). -/
structure ChapterEntry where
  start_ms : ℤ
  end_ms : ℤ
  title : String
deriving DecidableEq, Repr

/-- Whether a clip contributes a chapter: `create_chapters_file` skips a clip
when `not clip.pip_path or not clip.duration_sec` (Python truthiness). -/
def chapterIncluded (c : FrigateClip) : Bool :=
  optStrTruthy c.pip_path && optRatTruthy c.duration_sec

/-- The cumulative-offset fold of `create_chapters_file` (`grabit.py`
lines 674-702), carrying `current_time_ms`; each included clip contributes
`duration_ms = int(clip.duration_sec * 1000)`. -/
def chaptersFrom : List FrigateClip → ℤ → List ChapterEntry
  | [], _ => []
  | c :: rest, t =>
    if chapterIncluded c then
      ⟨t, t + pyInt (c.duration_sec.getD 0 * 1000), c.chapter_title⟩ ::
        chaptersFrom rest (t + pyInt (c.duration_sec.getD 0 * 1000))
    else
      chaptersFrom rest t

/-- `create_chapters_file`: the fold starts with `current_time_ms = 0`. -/
def create_chapters_file (clips : List FrigateClip) : List ChapterEntry :=
  chaptersFrom clips 0

/-- Whether a clip contributes a concat entry: `create_concat_file` includes
a clip when `clip.pip_path` is truthy. -/
def concatIncluded (c : FrigateClip) : Bool :=
  optStrTruthy c.pip_path

/-- `create_concat_file` (`grabit.py` lines 656-671): one `file` directive per
clip with a truthy `pip_path`, in the given order; the recorded datum is the
referenced path. -/
def create_concat_file (clips : List FrigateClip) : List String :=
  clips.filterMap (fun c => if concatIncluded c then some (c.pip_path.getD "") else none)

theorem chaptersFrom_head_start (clips : List FrigateClip) (t : ℤ) :
    (chaptersFrom clips t).head?.all (fun ch => ch.start_ms == t) = true := by
  induction clips generalizing t with
  | nil => rfl
  | cons c rest ih =>
    rw [chaptersFrom]
    by_cases h : chapterIncluded c = true
    · simp [h]
    · simp only [h, if_neg]
      simpa using ih t

theorem chaptersFrom_chain (clips : List FrigateClip) (t : ℤ) :
    List.Chain' (fun a b => a.end_ms = b.start_ms) (chaptersFrom clips t) := by
  induction clips generalizing t with
  | nil => exact List.chain'_nil
  | cons c rest ih =>
    rw [chaptersFrom]
    by_cases h : chapterIncluded c = true
    · rw [if_pos h, List.chain'_cons']
      refine ⟨?_, ih _⟩
      intro y hy
      have hall := chaptersFrom_head_start rest (t + pyInt (c.duration_sec.getD 0 * 1000))
      rw [hy] at hall
      simp only [Option.all_some, beq_iff_eq] at hall
      exact hall.symm
    · rw [if_neg h]
      exact ih t

theorem chaptersFrom_map_title (clips : List FrigateClip) (t : ℤ) :
    (chaptersFrom clips t).map ChapterEntry.title =
      (clips.filter chapterIncluded).map FrigateClip.chapter_title := by
  induction clips generalizing t with
  | nil => rfl
  | cons c rest ih =>
    rw [chaptersFrom]
    by_cases h : chapterIncluded c = true
    · simp [h, ih]
    · simp [h, ih t]

theorem chaptersFrom_map_len (clips : List FrigateClip) (t : ℤ) :
    (chaptersFrom clips t).map (fun ch => ch.end_ms - ch.start_ms) =
      (clips.filter chapterIncluded).map (fun c => pyInt (c.duration_sec.getD 0 * 1000)) := by
  induction clips generalizing t with
  | nil => rfl
  | cons c rest ih =>
    rw [chaptersFrom]
    by_cases h : chapterIncluded c = true
    · simp [h, ih]
    · simp [h, ih t]

theorem create_concat_eq_filter (clips : List FrigateClip) :
    create_concat_file clips =
      (clips.filter concatIncluded).map (fun c => c.pip_path.getD "") := by
  induction clips with
  | nil => rfl
  | cons c rest ih =>
    rw [create_concat_file, List.filterMap_cons]
    by_cases h : concatIncluded c = true
    · simp [h, create_concat_file] at ih ⊢
      exact ih
    · simp [h, create_concat_file] at ih ⊢
      exact ih

/-- First scenario clip: measured duration 5.0s. -/
def scenA : FrigateClip :=
  { id := "a", camera := "front", label := "person", zone := none, score := 0,
    start_time := 0, end_time := 5, pip_path := some "/t/pip_a.mp4", duration_sec := some 5 }

/-- Second scenario clip: measured duration 3.0s. -/
def scenB : FrigateClip :=
  { id := "b", camera := "front", label := "person", zone := none, score := 0,
    start_time := 5, end_time := 8, pip_path := some "/t/pip_b.mp4", duration_sec := some 3 }

/-- Third scenario clip: measured duration 4.0s. -/
def scenC : FrigateClip :=
  { id := "c", camera := "front", label := "person", zone := none, score := 0,
    start_time := 8, end_time := 12, pip_path := some "/t/pip_c.mp4", duration_sec := some 4 }

/-- Three all-successful clips with measured durations 5.0s, 3.0s, 4.0s, the
concrete scenario of the specification. -/
def scenarioClips : List FrigateClip := [scenA, scenB, scenC]

theorem pyInt_msec_5 : pyInt ((5 : ℚ) * 1000) = 5000 := by
  rw [pyInt_of_nonneg (by norm_num)]; norm_num [Int.floor_eq_iff]

theorem pyInt_msec_3 : pyInt ((3 : ℚ) * 1000) = 3000 := by
  rw [pyInt_of_nonneg (by norm_num)]; norm_num [Int.floor_eq_iff]

theorem pyInt_msec_4 : pyInt ((4 : ℚ) * 1000) = 4000 := by
  rw [pyInt_of_nonneg (by norm_num)]; norm_num [Int.floor_eq_iff]

theorem scenario_chapters :
    (create_chapters_file scenarioClips).map (fun ch => (ch.start_ms, ch.end_ms)) =
      [(0, 5000), (5000, 8000), (8000, 12000)] := by
  have hA : chapterIncluded scenA = true := by decide
  have hB : chapterIncluded scenB = true := by decide
  have hC : chapterIncluded scenC = true := by decide
  have dA : scenA.duration_sec.getD 0 = 5 := by decide
  have dB : scenB.duration_sec.getD 0 = 3 := by decide
  have dC : scenC.duration_sec.getD 0 = 4 := by decide
  rw [create_chapters_file, scenarioClips, chaptersFrom, if_pos hA, dA,
    chaptersFrom, if_pos hB, dB, chaptersFrom, if_pos hC, dC, chaptersFrom,
    pyInt_msec_5, pyInt_msec_3, pyInt_msec_4]
  norm_num

/-- C2: chapters are contiguous from zero — the first chapter starts at 0,
each chapter ends where the next begins, each chapter length is the clip's
measured duration converted to milliseconds — and on the concrete 5s/3s/4s
scenario the chapters are exactly [0,5000), [5000,8000), [8000,12000). -/
theorem chapters_contiguous :
    (∀ clips : List FrigateClip,
      (create_chapters_file clips).head?.all (fun ch => ch.start_ms == 0) = true ∧
      List.Chain' (fun a b => a.end_ms = b.start_ms) (create_chapters_file clips) ∧
      (create_chapters_file clips).map (fun ch => ch.end_ms - ch.start_ms) =
        (clips.filter chapterIncluded).map (fun c => pyInt (c.duration_sec.getD 0 * 1000))) ∧
    (create_chapters_file scenarioClips).map (fun ch => (ch.start_ms, ch.end_ms)) =
      [(0, 5000), (5000, 8000), (8000, 12000)] :=
  ⟨fun clips => ⟨chaptersFrom_head_start clips 0, chaptersFrom_chain clips 0,
    chaptersFrom_map_len clips 0⟩, scenario_chapters⟩

/-- A clip that processed successfully but whose probed duration is 0.0
(`analyze_video` returns `float(video_info.get('duration', 0))`, so a probe
response without a duration field yields 0.0 while the render still succeeds). -/
def zeroDurClip : FrigateClip :=
  { id := "z", camera := "front", label := "person", zone := none, score := 0,
    start_time := 0, end_time := 1, pip_path := some "/t/pip_z.mp4", duration_sec := some 0 }

/-- C3 counterexample: a clip that Succeeded (its `pip_path` is set) but whose
measured duration is 0.0 appears in the concat list yet is omitted from the
chapter list, so the chapter list does not contain one entry per succeeded clip. -/
theorem chapters_omit_zero_duration_clip :
    zeroDurClip.pip_path.isSome = true ∧
    create_concat_file [zeroDurClip] = ["/t/pip_z.mp4"] ∧
    create_chapters_file [zeroDurClip] = [] := by
  refine ⟨rfl, by decide, by decide⟩

/-- C3 amended: the chapter list has exactly one entry per succeeded clip whose
measured duration is truthy (set and nonzero), in original order; the concat
list has one entry per succeeded clip; hence when every succeeded clip has a
truthy duration, chapters and concat cover the same clips in the same order,
and no failed clip appears in either. -/
theorem chapters_cover_successful (clips : List FrigateClip)
    (h : ∀ c ∈ clips, concatIncluded c = true → optRatTruthy c.duration_sec = true) :
    (create_chapters_file clips).map ChapterEntry.title =
      (clips.filter concatIncluded).map FrigateClip.chapter_title ∧
    create_concat_file clips =
      (clips.filter concatIncluded).map (fun c => c.pip_path.getD "") ∧
    (create_chapters_file clips).length = (create_concat_file clips).length := by
  have hfil : clips.filter chapterIncluded = clips.filter concatIncluded := by
    apply List.filter_congr
    intro c hc
    cases hps : optStrTruthy c.pip_path with
    | false => simp [chapterIncluded, concatIncluded, hps]
    | true =>
      have hd := h c hc (by simp [concatIncluded, hps])
      simp [chapterIncluded, concatIncluded, hps, hd]
  have h1 : (create_chapters_file clips).map ChapterEntry.title =
      (clips.filter concatIncluded).map FrigateClip.chapter_title := by
    rw [create_chapters_file, chaptersFrom_map_title, hfil]
  refine ⟨h1, create_concat_eq_filter clips, ?_⟩
  have l1 := congrArg List.length h1
  have l2 := congrArg List.length (create_concat_eq_filter clips)
  simp only [List.length_map] at l1 l2
  rw [l1, l2]

/-- C3 amended witness: the correspondence theorem applied to a singleton
successful clip with nonzero duration. -/
theorem chapters_cover_successful_witness :
    (∀ c ∈ [scenA], concatIncluded c = true → optRatTruthy c.duration_sec = true) ∧
    ((create_chapters_file [scenA]).map ChapterEntry.title =
      (([scenA].filter concatIncluded)).map FrigateClip.chapter_title ∧
    create_concat_file [scenA] =
      ([scenA].filter concatIncluded).map (fun c => c.pip_path.getD "") ∧
    (create_chapters_file [scenA]).length = (create_concat_file [scenA]).length) :=
  ⟨by decide, chapters_cover_successful [scenA] (by decide)⟩

/-- Stable insertion used to model `clips.sort(key=lambda x: x.start_time)`:
the new clip goes after every element whose key is less than or equal. -/
def insertByStart (c : FrigateClip) : List FrigateClip → List FrigateClip
  | [] => [c]
  | d :: rest =>
    if d.start_time ≤ c.start_time then d :: insertByStart c rest
    else c :: d :: rest

/-- Stable ascending sort by `start_time` (Python list.sort is a stable sort). -/
def sortByStart (clips : List FrigateClip) : List FrigateClip :=
  clips.foldl (fun acc c => insertByStart c acc) []

/-- Outcome of processing one clip in `process_single_clip` (`grabit.py`
lines 522-607): either every stage succeeds and the probed duration is
recorded, or one of the stages raises and the handler clears the paths. -/
inductive ProcOutcome
  | success (duration_sec : ℚ)
  | failDownload
  | failSnapshot
  | failProbe
  | failEncode
deriving DecidableEq, Repr

/-- Whether the outcome is a full success. -/
def ProcOutcome.isSuccess : ProcOutcome → Bool
  | .success _ => true
  | _ => false

/-- Local path of the raw clip download (`clip_{id}.mp4` inside the temp dir). -/
def clipFilePath (temp_dir i : String) : String :=
  temp_dir ++ "/clip_" ++ i ++ ".mp4"

/-- Local path of the snapshot download (`snapshot_{id}.jpg`). -/
def snapshotFilePath (temp_dir i : String) : String :=
  temp_dir ++ "/snapshot_" ++ i ++ ".jpg"

/-- Local path of the rendered PiP clip (`pip_{id}.{format}`). -/
def pipFilePath (temp_dir i format : String) : String :=
  temp_dir ++ "/pip_" ++ i ++ "." ++ format

/-- Effect of `process_single_clip` on the clip record: on success all paths
and the probed duration are stored; on any failure the exception handler sets
`download_path`, `snapshot_path` and `pip_path` to `None` (the previously
unset `duration_sec` is not touched). -/
def applyOutcome (temp_dir format : String) (c : FrigateClip) : ProcOutcome → FrigateClip
  | .success d =>
    { c with download_path := some (clipFilePath temp_dir c.id),
             snapshot_path := some (snapshotFilePath temp_dir c.id),
             pip_path := some (pipFilePath temp_dir c.id format),
             duration_sec := some d }
  | _ => { c with download_path := none, snapshot_path := none, pip_path := none }

/-- One network request issued during a run. -/
inductive NetCall
  | eventsQuery (date camera : String) (zone label : Option String)
  | clipFetch (i : String)
  | snapshotFetch (i : String)
deriving DecidableEq, Repr

/-- Network requests of `process_single_clip`: the clip download always runs
first; the snapshot request is issued unless the clip download itself raised. -/
def procCalls (c : FrigateClip) : ProcOutcome → List NetCall
  | .failDownload => [.clipFetch c.id]
  | _ => [.clipFetch c.id, .snapshotFetch c.id]

/-- Parameters of one archive run (`archive_events_for_date` arguments). -/
structure ArchiveParams where
  date : String
  camera : String
  zone : Option String
  label : Option String
  output_dir : String
  format : String
deriving DecidableEq, Repr

/-- Filename components: `[date, camera]` plus zone and label when present. -/
def filenameComponents (p : ArchiveParams) : List String :=
  [p.date, p.camera] ++ p.zone.toList ++ p.label.toList

/-- `output_filename = '-'.join(components) + '.' + format`. -/
def outputFilename (p : ArchiveParams) : String :=
  String.intercalate "-" (filenameComponents p) ++ "." ++ p.format

/-- `output_path = os.path.join(output_dir, output_filename)`. -/
def outputPath (p : ArchiveParams) : String :=
  p.output_dir ++ "/" ++ outputFilename p

/-- The archive directory contents visible to the run (temp-dir internals live
and die inside the run and are kept abstract). -/
structure World where
  files : List String
deriving DecidableEq, Repr

/-- Record a freshly written file. -/
def addFile (w : World) (path : String) : World :=
  ⟨path :: w.files⟩

/-- `if os.path.exists(path): os.remove(path)`. -/
def removeFile (w : World) (path : String) : World :=
  ⟨w.files.filter (fun q => q != path)⟩

/-- Environment of one run: the catalog the event query would return, the
per-clip processing outcome, whether the stream-copy concatenation and the
chapter-metadata merge succeed, and whether a failing metadata merge leaves a
partially written file at the output path before the handler removes it. -/
structure RunEnv where
  temp_dir : String
  catalog : List FrigateClip
  proc : FrigateClip → ProcOutcome
  concatOk : Bool
  metadataOk : Bool
  metadataLeftover : Bool

/-- Observable outcome of `archive_events_for_date`, as recorded in its log
and trace attributes. -/
inductive RunResult
  | skipped
  | noEvents
  | abortedNoClips
  | abortedTooManyFailures (failed total : ℕ)
  | ffmpegFailed (stage : String)
  | completed (concatEntries : List String) (chapters : List ChapterEntry)
deriving DecidableEq, Repr

/-- A finished run: its reported outcome, the final filesystem state, and the
network requests issued. -/
structure RunTrace where
  result : RunResult
  world : World
  network : List NetCall
deriving DecidableEq, Repr

/-- The sorted catalog a run works through (`get_events_for_date` sorts the
response by `start_time`). -/
def runClips (env : RunEnv) : List FrigateClip :=
  sortByStart env.catalog

/-- The clip records after `process_clips` ran over the sorted catalog. -/
def runProcessed (p : ArchiveParams) (env : RunEnv) : List FrigateClip :=
  (runClips env).map (fun c => applyOutcome env.temp_dir p.format c (env.proc c))

/-- `successful_clips = [clip for clip in clips if clip.pip_path is not None]`. -/
def runSuccessful (p : ArchiveParams) (env : RunEnv) : List FrigateClip :=
  (runProcessed p env).filter (fun c => c.pip_path.isSome)

/-- All network requests of a run that got past the idempotence gate and the
empty-catalog return: the event query followed by the per-clip requests. -/
def runNetwork (p : ArchiveParams) (env : RunEnv) : List NetCall :=
  NetCall.eventsQuery p.date p.camera p.zone p.label ::
    (runClips env).flatMap (fun c => procCalls c (env.proc c))

/-- Shallow embedding of `archive_events_for_date` (`grabit.py` lines 787-882):
the idempotence gate, the event query, clip processing, the zero-success and
failure-threshold aborts (which `sys.exit`), concatenation, metadata merge,
and the `ffmpeg.Error` handler that removes any partial output file. -/
def archive_events_for_date (p : ArchiveParams) (env : RunEnv) (w : World) : RunTrace :=
  if outputPath p ∈ w.files then
    ⟨.skipped, w, []⟩
  else if (runClips env).isEmpty then
    ⟨.noEvents, w, [.eventsQuery p.date p.camera p.zone p.label]⟩
  else if (runSuccessful p env).isEmpty then
    ⟨.abortedNoClips, w, runNetwork p env⟩
  else if 2 < (runClips env).length - (runSuccessful p env).length then
    ⟨.abortedTooManyFailures ((runClips env).length - (runSuccessful p env).length)
      (runClips env).length, w, runNetwork p env⟩
  else if env.concatOk = false then
    ⟨.ffmpegFailed "concat", removeFile w (outputPath p), runNetwork p env⟩
  else if env.metadataOk = false then
    ⟨.ffmpegFailed "metadata",
     removeFile (if env.metadataLeftover then addFile w (outputPath p) else w) (outputPath p),
     runNetwork p env⟩
  else
    ⟨.completed (create_concat_file (runSuccessful p env))
      (create_chapters_file (runSuccessful p env)),
     addFile w (outputPath p), runNetwork p env⟩

theorem mem_insertByStart {a c : FrigateClip} {l : List FrigateClip} :
    a ∈ insertByStart c l ↔ a = c ∨ a ∈ l := by
  induction l with
  | nil => simp [insertByStart]
  | cons d rest ih =>
    rw [insertByStart]
    by_cases h : d.start_time ≤ c.start_time
    · rw [if_pos h]
      simp [ih]
      tauto
    · rw [if_neg h]
      simp

theorem mem_sortByStart_aux (l : List FrigateClip) (acc : List FrigateClip) (a : FrigateClip) :
    a ∈ l.foldl (fun acc c => insertByStart c acc) acc ↔ a ∈ acc ∨ a ∈ l := by
  induction l generalizing acc with
  | nil => simp
  | cons c rest ih =>
    rw [List.foldl_cons, ih]
    simp [mem_insertByStart]
    tauto

theorem mem_sortByStart {a : FrigateClip} {l : List FrigateClip} :
    a ∈ sortByStart l ↔ a ∈ l := by
  rw [sortByStart, mem_sortByStart_aux]
  simp

theorem length_insertByStart (c : FrigateClip) (l : List FrigateClip) :
    (insertByStart c l).length = l.length + 1 := by
  induction l with
  | nil => rfl
  | cons d rest ih =>
    rw [insertByStart]
    by_cases h : d.start_time ≤ c.start_time
    · rw [if_pos h]
      simp [ih]
    · rw [if_neg h]
      simp

theorem length_sortByStart_aux (l : List FrigateClip) (acc : List FrigateClip) :
    (l.foldl (fun acc c => insertByStart c acc) acc).length = acc.length + l.length := by
  induction l generalizing acc with
  | nil => simp
  | cons c rest ih =>
    rw [List.foldl_cons, ih, length_insertByStart, List.length_cons]
    omega

theorem length_sortByStart (l : List FrigateClip) :
    (sortByStart l).length = l.length := by
  rw [sortByStart, length_sortByStart_aux, List.length_nil]
  omega

theorem applyOutcome_pip_isSome (td fmt : String) (c : FrigateClip) (o : ProcOutcome) :
    (applyOutcome td fmt c o).pip_path.isSome = o.isSuccess := by
  cases o <;> rfl

theorem isEmpty_false_of_ne_nil {α : Type} {l : List α} (h : l ≠ []) : l.isEmpty = false := by
  cases l with
  | nil => exact absurd rfl h
  | cons a t => rfl

theorem not_mem_removeFile (w : World) (path : String) :
    path ∉ (removeFile w path).files := by
  simp [removeFile, List.mem_filter]

/-- C1: if the computed output path already exists when the run starts, the
run reports skipped, issues no network request, and leaves the filesystem
untouched. -/
theorem skip_when_output_exists (p : ArchiveParams) (env : RunEnv) (w : World)
    (h : outputPath p ∈ w.files) :
    archive_events_for_date p env w = ⟨.skipped, w, []⟩ := by
  rw [archive_events_for_date, if_pos h]

/-- Shared concrete run parameters. -/
def runParams : ArchiveParams :=
  { date := "2024-01-01", camera := "front", zone := none, label := none,
    output_dir := "archives", format := "mp4" }

/-- A world that already holds the archive for `runParams`. -/
def gateWorld : World := ⟨["archives/2024-01-01-front.mp4"]⟩

/-- A world with no archive files. -/
def emptyWorld : World := ⟨[]⟩

/-- First concrete catalog clip. -/
def clipOne : FrigateClip :=
  { id := "c1", camera := "front", label := "person", zone := none, score := 0,
    start_time := 1, end_time := 2 }

/-- Second concrete catalog clip. -/
def clipTwo : FrigateClip :=
  { id := "c2", camera := "front", label := "person", zone := none, score := 0,
    start_time := 2, end_time := 3 }

/-- Third concrete catalog clip. -/
def clipThree : FrigateClip :=
  { id := "c3", camera := "front", label := "person", zone := none, score := 0,
    start_time := 3, end_time := 4 }

/-- Fourth concrete catalog clip. -/
def clipFour : FrigateClip :=
  { id := "c4", camera := "front", label := "person", zone := none, score := 0,
    start_time := 4, end_time := 5 }

/-- Environment whose two catalog clips both fail to download. -/
def failTwoEnv : RunEnv :=
  { temp_dir := "/t", catalog := [clipOne, clipTwo],
    proc := fun _ => .failDownload, concatOk := true, metadataOk := true,
    metadataLeftover := false }

/-- C1 witness: the gate theorem applied to a world already holding the output. -/
theorem skip_when_output_exists_witness :
    outputPath runParams ∈ gateWorld.files ∧
    archive_events_for_date runParams failTwoEnv gateWorld = ⟨.skipped, gateWorld, []⟩ :=
  ⟨by decide, skip_when_output_exists runParams failTwoEnv gateWorld (by decide)⟩

theorem runSuccessful_nil_of_all_fail (p : ArchiveParams) (env : RunEnv)
    (h : ∀ c ∈ env.catalog, (env.proc c).isSuccess = false) :
    runSuccessful p env = [] := by
  rw [runSuccessful, List.filter_eq_nil_iff]
  intro c hc
  rw [runProcessed, List.mem_map] at hc
  obtain ⟨c0, hc0, rfl⟩ := hc
  rw [applyOutcome_pip_isSome]
  have : c0 ∈ env.catalog := by
    rw [runClips] at hc0
    exact mem_sortByStart.mp hc0
  simp [h c0 this]

/-- C5: a run whose catalog is non-empty but in which every clip fails aborts
with the zero-success reason and leaves no file at the output path. -/
theorem all_failed_aborts (p : ArchiveParams) (env : RunEnv) (w : World)
    (h0 : outputPath p ∉ w.files)
    (h1 : env.catalog ≠ [])
    (h2 : ∀ c ∈ env.catalog, (env.proc c).isSuccess = false) :
    (archive_events_for_date p env w).result = .abortedNoClips ∧
    outputPath p ∉ (archive_events_for_date p env w).world.files := by
  have hclips : (runClips env).isEmpty = false := by
    apply isEmpty_false_of_ne_nil
    intro hnil
    have := length_sortByStart env.catalog
    rw [← runClips, hnil] at this
    exact h1 (List.length_eq_zero.mp this.symm)
  have hsucc : (runSuccessful p env).isEmpty = true := by
    rw [runSuccessful_nil_of_all_fail p env h2]
    rfl
  rw [archive_events_for_date, if_neg h0, if_neg (by simp [hclips]), if_pos hsucc]
  exact ⟨rfl, h0⟩

/-- C5 witness: the zero-success theorem applied to a two-clip catalog whose
downloads both fail. -/
theorem all_failed_aborts_witness :
    outputPath runParams ∉ emptyWorld.files ∧
    failTwoEnv.catalog ≠ [] ∧
    (∀ c ∈ failTwoEnv.catalog, (failTwoEnv.proc c).isSuccess = false) ∧
    ((archive_events_for_date runParams failTwoEnv emptyWorld).result = .abortedNoClips ∧
     outputPath runParams ∉ (archive_events_for_date runParams failTwoEnv emptyWorld).world.files) :=
  ⟨by decide, by decide, by decide,
   all_failed_aborts runParams failTwoEnv emptyWorld (by decide) (by decide) (by decide)⟩

/-- C4 counterexample: with two catalog clips both failing, the failure count
(2) does not exceed the threshold, yet the run does not complete — it aborts,
reporting the zero-success condition, refuting the claim that at or below the
threshold the run completes with the successful subsequence. -/
theorem threshold_claim_counterexample :
    (runClips failTwoEnv).length - (runSuccessful runParams failTwoEnv).length = 2 ∧
    ¬(2 < 2) ∧
    (archive_events_for_date runParams failTwoEnv emptyWorld).result = .abortedNoClips := by
  refine ⟨by decide, by decide, by decide⟩

/-- C4 amended: when the output is absent and the catalog is non-empty — if no
clip succeeds the run aborts with the zero-success reason regardless of the
failure count; if at least one clip succeeds and more than 2 fail, the run
aborts reporting too many failures and leaves no output file; if at least one
succeeds and at most 2 fail, the run proceeds to finalization and (when both
finalization stages succeed) completes using exactly the successful
subsequence. -/
theorem threshold_policy (p : ArchiveParams) (env : RunEnv) (w : World)
    (h0 : outputPath p ∉ w.files) (h1 : runClips env ≠ []) :
    (runSuccessful p env = [] →
      (archive_events_for_date p env w).result = .abortedNoClips) ∧
    (runSuccessful p env ≠ [] →
      2 < (runClips env).length - (runSuccessful p env).length →
      (archive_events_for_date p env w).result =
        .abortedTooManyFailures ((runClips env).length - (runSuccessful p env).length)
          (runClips env).length ∧
      outputPath p ∉ (archive_events_for_date p env w).world.files) ∧
    (runSuccessful p env ≠ [] →
      (runClips env).length - (runSuccessful p env).length ≤ 2 →
      env.concatOk = true → env.metadataOk = true →
      (archive_events_for_date p env w).result =
        .completed (create_concat_file (runSuccessful p env))
          (create_chapters_file (runSuccessful p env))) := by
  have hclips : (runClips env).isEmpty = false := isEmpty_false_of_ne_nil h1
  refine ⟨?_, ?_, ?_⟩
  · intro hs
    rw [archive_events_for_date, if_neg h0, if_neg (by simp [hclips]),
      if_pos (by rw [hs]; rfl)]
  · intro hs hthr
    rw [archive_events_for_date, if_neg h0, if_neg (by simp [hclips]),
      if_neg (by simp [isEmpty_false_of_ne_nil hs]), if_pos hthr]
    exact ⟨rfl, h0⟩
  · intro hs hthr hcat hmeta
    rw [archive_events_for_date, if_neg h0, if_neg (by simp [hclips]),
      if_neg (by simp [isEmpty_false_of_ne_nil hs]), if_neg (not_lt.mpr hthr),
      if_neg (by simp [hcat]), if_neg (by simp [hmeta])]

/-- Environment with four catalog clips of which exactly one succeeds. -/
def mixedEnv : RunEnv :=
  { temp_dir := "/t", catalog := [clipOne, clipTwo, clipThree, clipFour],
    proc := fun c => if c.id == "c1" then .success 5 else .failDownload,
    concatOk := true, metadataOk := true, metadataLeftover := false }

/-- C4 amended witness: the policy theorem applied to a four-clip catalog with
three failures (above the threshold), which aborts with TooManyFailures. -/
theorem threshold_policy_witness :
    outputPath runParams ∉ emptyWorld.files ∧
    runClips mixedEnv ≠ [] ∧
    runSuccessful runParams mixedEnv ≠ [] ∧
    2 < (runClips mixedEnv).length - (runSuccessful runParams mixedEnv).length ∧
    ((archive_events_for_date runParams mixedEnv emptyWorld).result =
      .abortedTooManyFailures
        ((runClips mixedEnv).length - (runSuccessful runParams mixedEnv).length)
        (runClips mixedEnv).length ∧
     outputPath runParams ∉
       (archive_events_for_date runParams mixedEnv emptyWorld).world.files) :=
  ⟨by decide, by decide, by decide, by decide,
   (threshold_policy runParams mixedEnv emptyWorld (by decide) (by decide)).2.1
     (by decide) (by decide)⟩

/-- C6: when the run reaches finalization and the stream-copy concatenation or
the chapter-metadata merge fails, the reported outcome is the ffmpeg failure
with its stage, and no file exists at the output path afterwards (any
partially written output is removed by the handler). -/
theorem finalize_failure_cleanup (p : ArchiveParams) (env : RunEnv) (w : World)
    (h0 : outputPath p ∉ w.files)
    (h1 : runClips env ≠ [])
    (h2 : runSuccessful p env ≠ [])
    (h3 : (runClips env).length - (runSuccessful p env).length ≤ 2)
    (h4 : env.concatOk = false ∨ env.metadataOk = false) :
    (∃ s, (archive_events_for_date p env w).result = .ffmpegFailed s) ∧
    outputPath p ∉ (archive_events_for_date p env w).world.files := by
  have hclips : (runClips env).isEmpty = false := isEmpty_false_of_ne_nil h1
  rw [archive_events_for_date, if_neg h0, if_neg (by simp [hclips]),
    if_neg (by simp [isEmpty_false_of_ne_nil h2]), if_neg (not_lt.mpr h3)]
  by_cases hc : env.concatOk = false
  · rw [if_pos hc]
    exact ⟨⟨"concat", rfl⟩, not_mem_removeFile w (outputPath p)⟩
  · rw [if_neg hc]
    have hm : env.metadataOk = false := h4.resolve_left hc
    rw [if_pos hm]
    exact ⟨⟨"metadata", rfl⟩, not_mem_removeFile _ (outputPath p)⟩

/-- Environment with one successful clip whose concatenation stage fails. -/
def concatFailEnv : RunEnv :=
  { temp_dir := "/t", catalog := [clipOne],
    proc := fun _ => .success 5, concatOk := false, metadataOk := true,
    metadataLeftover := false }

/-- C6 witness: the cleanup theorem applied to a run whose concatenation fails. -/
theorem finalize_failure_cleanup_witness :
    outputPath runParams ∉ emptyWorld.files ∧
    runClips concatFailEnv ≠ [] ∧
    runSuccessful runParams concatFailEnv ≠ [] ∧
    (runClips concatFailEnv).length - (runSuccessful runParams concatFailEnv).length ≤ 2 ∧
    ((∃ s, (archive_events_for_date runParams concatFailEnv emptyWorld).result =
        .ffmpegFailed s) ∧
     outputPath runParams ∉
       (archive_events_for_date runParams concatFailEnv emptyWorld).world.files) :=
  ⟨by decide, by decide, by decide, by decide,
   finalize_failure_cleanup runParams concatFailEnv emptyWorld (by decide) (by decide)
     (by decide) (by decide) (Or.inl rfl)⟩

/-- C7 counterexample: in `grabit.py` a clip whose raw download succeeded but
whose snapshot request raised is caught by the handler and marked Failed
(`pip_path = None`), so it does not Succeed, contrary to the claim. -/
theorem snapshot_failure_marks_clip_failed :
    (applyOutcome "/t" "mp4" clipOne ProcOutcome.failSnapshot).pip_path = none ∧
    (applyOutcome "/t" "mp4" clipOne ProcOutcome.failSnapshot).pip_path.isSome = false :=
  ⟨rfl, rfl⟩

/-- Input to `optchat.py` `process_clip` as far as it is observable: the
probed duration (`None` when `ffmpeg.probe` failed) and whether the
thumbnail download returned a path. -/
structure OptClipInput where
  duration : Option ℚ
  thumbnailOk : Bool
deriving DecidableEq, Repr

/-- The rendered stream built by `optchat.py` `process_clip`: with the
thumbnail it is an overlay plus counter, without it a counter-only render. -/
inductive OptRendered
  | withOverlay (counter : String)
  | counterOnly (counter : String)
deriving DecidableEq, Repr

/-- The running counter text `f"{idx+1}/{total}"`. -/
def counterString (idx total : ℕ) : String :=
  toString (idx + 1) ++ "/" ++ toString total

/-- `optchat.py` `process_clip` (lines 67-94): return `None` when the duration
is unreadable or above 90 s; otherwise render with the thumbnail overlay when
the thumbnail downloaded, and fall back to a counter-only render when the
thumbnail download failed (the graph-building branch raises no engine error). -/
def optchat_process_clip (idx total : ℕ) (inp : OptClipInput) : Option OptRendered :=
  match inp.duration with
  | none => none
  | some d =>
    if 90 < d then none
    else if inp.thumbnailOk then some (.withOverlay (counterString idx total))
    else some (.counterOnly (counterString idx total))

/-- C7 amended: the two scripts disagree — in `grabit.py` a snapshot-download
failure marks the clip Failed, while in `optchat.py` a thumbnail-download
failure degrades to a successful counter-only render with no overlay image. -/
theorem thumbnail_failure_behavior :
    (∀ (td fmt : String) (c : FrigateClip),
      (applyOutcome td fmt c ProcOutcome.failSnapshot).pip_path = none) ∧
    (∀ (idx total : ℕ) (d : ℚ), d ≤ 90 →
      optchat_process_clip idx total ⟨some d, false⟩ =
        some (.counterOnly (counterString idx total))) := by
  refine ⟨fun td fmt c => rfl, fun idx total d h => ?_⟩
  rw [optchat_process_clip]
  simp [not_lt.mpr h]

/-- C7 amended witness: the degrade branch evaluated on a 5 s clip whose
thumbnail download failed. -/
theorem thumbnail_failure_behavior_witness :
    (5 : ℚ) ≤ 90 ∧
    optchat_process_clip 0 3 ⟨some 5, false⟩ = some (.counterOnly (counterString 0 3)) :=
  ⟨by decide, thumbnail_failure_behavior.2 0 3 5 (by decide)⟩

/-- Environment for `optfrigate.py`: the probed duration of each clip URL
(`get_clip_duration` returns `None` on probe failure). -/
structure OptEnv where
  durOf : String → Option ℚ

/-- The annotated stream returned by `optfrigate.py` `process_clip`: the input
clip with the burned-in running counter. -/
structure RenderedStream where
  source : String
  counter : String
deriving DecidableEq, Repr

/-- `optfrigate.py` `process_clip` (lines 47-61): `None` when the duration is
unreadable, otherwise the drawtext-annotated stream for `(clip, idx)`. -/
def optfrigate_process_clip (env : OptEnv) (total : ℕ) :
    String × ℕ → Option RenderedStream
  | (clip, idx) =>
    match env.durOf clip with
    | none => none
    | some _ => some ⟨clip, counterString idx total⟩

/-- One completed worker writes its result into the slot of its own index
(the index-addressed collection that `executor.map` maintains). -/
def writeSlot {n : ℕ} {β : Type} (acc : Fin n → Option β) (i : Fin n) (v : β) :
    Fin n → Option β :=
  fun j => if j = i then some v else acc j

/-- Slot contents after the workers completed in the order `order`: each
completion writes the result of its own chunk element at its own index. -/
def runSlots {α β : Type} (f : α → β) (chunk : List α)
    (order : List (Fin chunk.length)) : Fin chunk.length → Option β :=
  order.foldl (fun acc i => writeSlot acc i (f (chunk.get i))) (fun _ => none)

/-- The result sequence `process_chunk` hands on: the slots read back in index
order, exactly how `list(executor.map(process_clip, chunk))` materializes
results — by input position, not by completion time. -/
def process_chunk_results {α β : Type} (f : α → β) (chunk : List α)
    (order : List (Fin chunk.length)) : List (Option β) :=
  (List.finRange chunk.length).map (runSlots f chunk order)

theorem runSlots_foldl_mem {α β : Type} (f : α → β) (chunk : List α)
    (order : List (Fin chunk.length)) (acc : Fin chunk.length → Option β)
    (j : Fin chunk.length)
    (h : acc j = some (f (chunk.get j)) ∨ j ∈ order) :
    order.foldl (fun acc i => writeSlot acc i (f (chunk.get i))) acc j =
      some (f (chunk.get j)) := by
  induction order generalizing acc with
  | nil =>
    rcases h with h | h
    · exact h
    · exact absurd h (List.not_mem_nil j)
  | cons i rest ih =>
    rw [List.foldl_cons]
    apply ih
    rcases h with h | h
    · by_cases hji : j = i
      · subst hji
        exact Or.inl (by simp [writeSlot])
      · exact Or.inl (by simpa [writeSlot, hji] using h)
    · rcases List.mem_cons.mp h with hji | hmem
      · subst hji
        exact Or.inl (by simp [writeSlot])
      · exact Or.inr hmem

/-- C8: for every completion order in which every worker finishes, the emitted
result sequence equals the per-clip results mapped over the chunk in its
original (catalog, start-time-sorted) order — it never depends on the
completion permutation. -/
theorem results_in_catalog_order (env : OptEnv) (total : ℕ)
    (chunk : List (String × ℕ)) (order : List (Fin chunk.length))
    (h : ∀ i : Fin chunk.length, i ∈ order) :
    process_chunk_results (optfrigate_process_clip env total) chunk order =
      chunk.map (fun c => some (optfrigate_process_clip env total c)) := by
  rw [process_chunk_results]
  have hmap : (List.finRange chunk.length).map
      (runSlots (optfrigate_process_clip env total) chunk order) =
      (List.finRange chunk.length).map
        (fun j => some (optfrigate_process_clip env total (chunk.get j))) := by
    apply List.map_congr_left
    intro j _
    exact runSlots_foldl_mem _ chunk order _ j (Or.inr (h j))
  rw [hmap]
  have : (fun j : Fin chunk.length => some (optfrigate_process_clip env total (chunk.get j))) =
      (fun c => some (optfrigate_process_clip env total c)) ∘ chunk.get := rfl
  rw [this, ← List.map_map, List.finRange_map_get]

/-- Concrete duration oracle: every clip probes to 1 s. -/
def constDurEnv : OptEnv := ⟨fun _ => some 1⟩

/-- Concrete two-element chunk in catalog order. -/
def twoChunk : List (String × ℕ) := [("u0", 0), ("u1", 1)]

/-- Reversed completion order for the two workers (worker 1 finishes first). -/
def reversedOrder : List (Fin twoChunk.length) := [⟨1, by decide⟩, ⟨0, by decide⟩]

/-- C8 witness: the order theorem applied to two workers completing in reverse
order; the emitted sequence still follows the chunk order. -/
theorem results_in_catalog_order_witness :
    (∀ i : Fin twoChunk.length, i ∈ reversedOrder) ∧
    process_chunk_results (optfrigate_process_clip constDurEnv 2) twoChunk reversedOrder =
      twoChunk.map (fun c => some (optfrigate_process_clip constDurEnv 2 c)) :=
  ⟨by decide, results_in_catalog_order constDurEnv 2 twoChunk reversedOrder (by decide)⟩
